import Mathlib

/-!
Shallow embedding of the supabase functions-js invocation layer.

Two variants of the client exist in the source:
* the transform-based `FunctionsClient` with the five error classes
  (`SerializationError`, `FetchError`, `RelayError`, `DeserializationError`,
  `HttpError`), its `defaultRequestTransform` and `defaultResponseTransform`;
* the `responseType`-based `FunctionsClient` of `src/index.ts` with plain
  record headers, `Object.assign` merging and `status`/`statusText` echoing.

Platform primitives (JSON.stringify, JSON.parse, WHATWG Headers, WHATWG URL
resolution, fetch Response body readers) are modelled explicitly below; each
model states in its doc comment which primitive it stands for and which
fragment it covers.
-/

namespace FunctionsJs

/-- Model of a JavaScript runtime value as far as JSON serialization is
concerned.  `vBigInt` stands for a value on which `JSON.stringify` throws
(BigInt, or equivalently a circular object). -/
inductive Value where
  | vNull : Value
  | vBool : Bool → Value
  | vNum : Int → Value
  | vStr : String → Value
  | vArr : List Value → Value
  | vObj : List (String × Value) → Value
  | vBigInt : Int → Value

/-- Model of an arbitrary JavaScript value as it flows through the client:
a JSON-representable value, a binary blob, an array buffer, or a form-data
container (kept as the raw body it was parsed from; platform multipart
parsing is abstracted). -/
inductive JSVal where
  | value : Value → JSVal
  | blobData : String → JSVal
  | bufferData : String → JSVal
  | formDataVal : String → JSVal

/-- JSON string escaping for the characters relevant to the model. -/
def escapeChar (c : Char) : String :=
  if c = '"' then "\\\""
  else if c = '\\' then "\\\\"
  else String.mk [c]

def escapeString (s : String) : String :=
  String.join (s.toList.map escapeChar)

def joinComma : List String → String
  | [] => ""
  | [s] => s
  | s :: rest => s ++ "," ++ joinComma rest

mutual

/-- Model of `JSON.stringify`: total on JSON-representable values, throws a
`TypeError` on a BigInt anywhere inside the value (standing for all inputs on
which the real `JSON.stringify` throws). -/
def jsonStringify : Value → Except JSVal String
  | Value.vNull => Except.ok "null"
  | Value.vBool true => Except.ok "true"
  | Value.vBool false => Except.ok "false"
  | Value.vNum n => Except.ok (toString n)
  | Value.vStr s => Except.ok ("\"" ++ escapeString s ++ "\"")
  | Value.vArr xs =>
    match stringifyList xs with
    | Except.ok parts => Except.ok ("[" ++ joinComma parts ++ "]")
    | Except.error e => Except.error e
  | Value.vObj fs =>
    match stringifyFields fs with
    | Except.ok parts => Except.ok ("\x7b" ++ joinComma parts ++ "\x7d")
    | Except.error e => Except.error e
  | Value.vBigInt _ =>
    Except.error (JSVal.value (Value.vStr "TypeError: Do not know how to serialize a BigInt"))

def stringifyList : List Value → Except JSVal (List String)
  | [] => Except.ok []
  | v :: rest =>
    match jsonStringify v with
    | Except.error e => Except.error e
    | Except.ok s =>
      match stringifyList rest with
      | Except.error e => Except.error e
      | Except.ok r => Except.ok (s :: r)

def stringifyFields : List (String × Value) → Except JSVal (List String)
  | [] => Except.ok []
  | (k, v) :: rest =>
    match jsonStringify v with
    | Except.error e => Except.error e
    | Except.ok s =>
      match stringifyFields rest with
      | Except.error e => Except.error e
      | Except.ok r => Except.ok (("\"" ++ escapeString k ++ "\":" ++ s) :: r)

end

/-- Whitespace skipping for the JSON reader. -/
def skipWs : List Char → List Char
  | [] => []
  | c :: rest =>
    if c = ' ' ∨ c = '\n' ∨ c = '\t' ∨ c = '\r' then skipWs rest else c :: rest

def takeDigits : List Char → (List Char × List Char)
  | [] => ([], [])
  | c :: rest =>
    if c.isDigit then
      let (a, b) := takeDigits rest
      (c :: a, b)
    else ([], c :: rest)

def digitsToNat : List Char → Nat
  | [] => 0
  | c :: rest => (c.toNat - 48) * (10 ^ rest.length) + digitsToNat rest

/-- Reads a JSON string body up to the closing quote; escape sequences are
outside the modelled fragment and make the reader fail (conservatively). -/
def readStringBody (acc : List Char) : List Char → Option (String × List Char)
  | [] => none
  | '"' :: rest => some (String.mk acc.reverse, rest)
  | '\\' :: _ => none
  | c :: rest => readStringBody (c :: acc) rest

mutual

/-- Fuel-indexed model of `JSON.parse` for the fragment consisting of
`null`, booleans, integer numbers, escape-free strings, arrays and objects;
inputs outside the fragment fail (conservatively with respect to the real
parser). -/
def parseVal : Nat → List Char → Option (Value × List Char)
  | 0, _ => none
  | Nat.succ fuel, cs =>
    match skipWs cs with
    | 'n' :: 'u' :: 'l' :: 'l' :: rest => some (Value.vNull, rest)
    | 't' :: 'r' :: 'u' :: 'e' :: rest => some (Value.vBool true, rest)
    | 'f' :: 'a' :: 'l' :: 's' :: 'e' :: rest => some (Value.vBool false, rest)
    | '"' :: rest =>
      match readStringBody [] rest with
      | some (s, r) => some (Value.vStr s, r)
      | none => none
    | '[' :: rest =>
      match skipWs rest with
      | ']' :: r2 => some (Value.vArr [], r2)
      | r1 =>
        match parseElems fuel r1 with
        | some (xs, r2) => some (Value.vArr xs, r2)
        | none => none
    | '\x7b' :: rest =>
      match skipWs rest with
      | '\x7d' :: r2 => some (Value.vObj [], r2)
      | r1 =>
        match parseMembers fuel r1 with
        | some (fs, r2) => some (Value.vObj fs, r2)
        | none => none
    | '-' :: rest =>
      match takeDigits rest with
      | ([], _) => none
      | (ds, r) => some (Value.vNum (-(digitsToNat ds : Int)), r)
    | c :: rest =>
      if c.isDigit then
        match takeDigits (c :: rest) with
        | ([], _) => none
        | (ds, r) => some (Value.vNum (digitsToNat ds : Int), r)
      else none
    | [] => none

def parseElems : Nat → List Char → Option (List Value × List Char)
  | 0, _ => none
  | Nat.succ fuel, cs =>
    match parseVal fuel cs with
    | none => none
    | some (v, rest) =>
      match skipWs rest with
      | ',' :: r2 =>
        match parseElems fuel r2 with
        | some (xs, r3) => some (v :: xs, r3)
        | none => none
      | ']' :: r2 => some ([v], r2)
      | _ => none

def parseMembers : Nat → List Char → Option (List (String × Value) × List Char)
  | 0, _ => none
  | Nat.succ fuel, cs =>
    match skipWs cs with
    | '"' :: rest =>
      match readStringBody [] rest with
      | none => none
      | some (k, r1) =>
        match skipWs r1 with
        | ':' :: r2 =>
          match parseVal fuel r2 with
          | none => none
          | some (v, r3) =>
            match skipWs r3 with
            | ',' :: r4 =>
              match parseMembers fuel r4 with
              | some (fs, r5) => some ((k, v) :: fs, r5)
              | none => none
            | '\x7d' :: r4 => some ([(k, v)], r4)
            | _ => none
        | _ => none
    | _ => none

end

/-- Model of `JSON.parse` (via `Response.json()`): parse the whole body,
requiring only trailing whitespace after the value; any failure stands for
the `SyntaxError` the real parser throws. -/
def jsonParse (s : String) : Except JSVal Value :=
  match parseVal (s.length + 2) s.toList with
  | some (v, rest) =>
    if skipWs rest = [] then Except.ok v
    else Except.error (JSVal.value (Value.vStr "SyntaxError: Unexpected token in JSON"))
  | none => Except.error (JSVal.value (Value.vStr "SyntaxError: Unexpected token in JSON"))

/-! The WHATWG Headers model.

A `Headers` object is modelled as an association list whose keys are stored
lowercased; `hset` models `Headers.set` (replace any entry with the same
case-insensitive name), `hget` models `Headers.get`, `hdelete` models
`Headers.delete`. -/

abbrev HeaderList := List (String × String)

/-- ASCII lowercasing of a header name (case-insensitive Headers keys). -/
def lowerName (s : String) : String :=
  String.mk (s.toList.map Char.toLower)

def hset (h : HeaderList) (n v : String) : HeaderList :=
  (h.filter (fun p => !(p.1 == lowerName n))) ++ [(lowerName n, v)]

def hget (h : HeaderList) (n : String) : Option String :=
  (h.find? (fun p => p.1 == lowerName n)).map (fun p => p.2)

def hdelete (h : HeaderList) (n : String) : HeaderList :=
  h.filter (fun p => !(p.1 == lowerName n))

/-- The header-merge loop of `invoke`: starting from the headers produced by
the request transform, every header of the client is `set` over them, so the
client header set takes precedence. -/
def mergeHeaders (clientHeaders reqHeaders : HeaderList) : HeaderList :=
  clientHeaders.foldl (fun acc p => hset acc p.1 p.2) reqHeaders

/-! The WHATWG URL model.

`resolveURL input base` models `new URL(input, base)` for http(s)-style
(special-scheme) URLs.  Following the WHATWG algorithm, the input is first
preprocessed: leading and trailing C0 controls and spaces are removed, and
ASCII tabs and newlines are removed everywhere.  For special schemes the
parser treats `\` exactly like `/`, so a scheme-free input beginning with
any two slash-like characters (`//`, `/\`, `\/`, `\\`) starts an authority
and replaces the host — further slash-like characters before the host are
skipped, as in the special-authority-ignore-slashes state; an input
beginning with a single slash-like character replaces the path on the base
host; any other scheme-free input is joined onto the directory of the base
path.  An input carrying its own scheme is parsed as an absolute URL.
Query, fragment and dot-segment normalization are elided, and the WHATWG
corner in which an input whose scheme equals the special base scheme is
re-parsed as relative is not modelled (such inputs are treated as
absolute); neither affects any host-preservation statement below, whose
hypotheses exclude scheme-carrying inputs. -/

structure URLModel where
  scheme : String
  host : String
  path : String
deriving DecidableEq

def isSchemeChar (c : Char) : Bool :=
  c.isAlphanum || c = '+' || c = '-' || c = '.'

def schemeSplitGo (acc : List Char) : List Char → Option (List Char × List Char)
  | [] => none
  | ':' :: rest => some (acc.reverse, rest)
  | c :: rest => if isSchemeChar c then schemeSplitGo (c :: acc) rest else none

/-- Splits a leading `scheme:` prefix off a URL string, as the WHATWG parser
does: an initial ASCII alpha followed by scheme characters and a colon. -/
def schemeSplit : List Char → Option (List Char × List Char)
  | [] => none
  | c :: rest => if c.isAlpha then schemeSplitGo [c] rest else none

/-- C0 controls and the space character, stripped from both ends of a URL
input by the WHATWG parser before parsing. -/
def isC0OrSpace (c : Char) : Bool :=
  c.toNat ≤ 32

/-- ASCII tab and newline characters, removed everywhere in a URL input by
the WHATWG parser. -/
def isTabOrNewline (c : Char) : Bool :=
  c = '\t' || c = '\n' || c = '\r'

/-- The WHATWG URL input preprocessing: strip leading and trailing C0
controls and spaces, then remove every tab and newline. -/
def preprocessURLInput (s : String) : List Char :=
  (((s.toList.dropWhile isC0OrSpace).reverse.dropWhile isC0OrSpace).reverse).filter
    (fun c => !(isTabOrNewline c))

/-- For special schemes (http, https) the WHATWG parser treats a backslash
exactly like a forward slash. -/
def isSlashLike (c : Char) : Bool :=
  c = '/' || c = '\\'

def takeUntilSlashLike : List Char → (List Char × List Char)
  | [] => ([], [])
  | c :: rest =>
    if isSlashLike c then ([], c :: rest)
    else
      let (a, b) := takeUntilSlashLike rest
      (c :: a, b)

def pathOr (p : List Char) : String :=
  if p = [] then "/" else String.mk p

/-- Directory prefix of a path: everything up to and including the last
slash (used by relative resolution, which replaces the last segment). -/
def dirOf (path : String) : String :=
  let rev := path.toList.reverse
  let after := rev.dropWhile (fun c => !(c == '/'))
  if after = [] then "/" else String.mk after.reverse

/-- Whether the preprocessed input begins with two slash-like characters —
the shapes `//x`, `/\x`, `\/x`, `\\x` that start an authority and replace
the host when resolved against a special-scheme base. -/
def startsWithTwoSlashLike (s : String) : Bool :=
  match preprocessURLInput s with
  | c1 :: c2 :: _ => isSlashLike c1 && isSlashLike c2
  | _ => false

def hasScheme (s : String) : Bool :=
  (schemeSplit (preprocessURLInput s)).isSome

def resolveURL (input : String) (base : URLModel) : URLModel :=
  match schemeSplit (preprocessURLInput input) with
  | some (sch, rest) =>
    match rest with
    | c1 :: c2 :: rest2 =>
      if isSlashLike c1 && isSlashLike c2 then
        let (h, p) := takeUntilSlashLike ((c1 :: c2 :: rest2).dropWhile isSlashLike)
        ⟨String.mk sch, String.mk h, pathOr p⟩
      else ⟨String.mk sch, "", String.mk (c1 :: c2 :: rest2)⟩
    | rest1 => ⟨String.mk sch, "", String.mk rest1⟩
  | none =>
    match preprocessURLInput input with
    | c1 :: c2 :: rest2 =>
      if isSlashLike c1 && isSlashLike c2 then
        let (h, p) := takeUntilSlashLike ((c1 :: c2 :: rest2).dropWhile isSlashLike)
        ⟨base.scheme, String.mk h, pathOr p⟩
      else if isSlashLike c1 then
        ⟨base.scheme, base.host, String.mk ('/' :: c2 :: rest2)⟩
      else ⟨base.scheme, base.host, dirOf base.path ++ String.mk (c1 :: c2 :: rest2)⟩
    | [c1] =>
      if isSlashLike c1 then ⟨base.scheme, base.host, "/"⟩
      else ⟨base.scheme, base.host, dirOf base.path ++ String.mk [c1]⟩
    | [] => ⟨base.scheme, base.host, base.path⟩

/-! Error objects of the transform-based client.

The five error classes all extend `FunctionsError`, whose constructor takes
`(message, name, context)`, prefixes the message and stores the name and
context.  The object is modelled by its observable fields.  `errName` holds
the JavaScript `name` property; its type is `JSVal` because `HttpError`
passes its context argument in the name position of the base constructor. -/

structure ErrObj where
  message : String
  errName : JSVal
  context : Option JSVal
  status : Option Nat
  statusText : Option String

def strVal (s : String) : JSVal := JSVal.value (Value.vStr s)

/-- Model of the `FunctionsError` base constructor. -/
def mkFunctionsError (message : String) (nm : JSVal) (context : Option JSVal) : ErrObj :=
  ⟨"FunctionsError: " ++ message, nm, context, none, none⟩

def mkSerializationError (context : JSVal) : ErrObj :=
  mkFunctionsError "Failed to serialize input data into a proper Request object"
    (strVal "SerializationError") (some context)

def mkDeserializationError (context : JSVal) : ErrObj :=
  mkFunctionsError "Failed to deserialize the Response object into output data"
    (strVal "DeserializationError") (some context)

def mkFetchError (context : JSVal) : ErrObj :=
  mkFunctionsError "Failed to fetch data from edge server"
    (strVal "FetchError") (some context)

def mkRelayError (context : JSVal) : ErrObj :=
  mkFunctionsError "Relay error communicating with deno backend"
    (strVal "RelayError") (some context)

/-- Model of the `HttpError` constructor: its `super` call passes only two
arguments, `(message, context)`, so the context lands in the base
constructor's name parameter and the base context parameter stays at its
default `undefined`. -/
def mkHttpError (status : Nat) (statusText : String) (context : JSVal) : ErrObj :=
  let base := mkFunctionsError "Edge server returned a non-2xx status code" context none
  ⟨base.message, base.errName, base.context, some status, some statusText⟩

/-! Requests, responses and the transform-based client. -/

/-- A fetch request body.  Binary payloads (Blob, ArrayBuffer) are carried as
opaque byte strings. -/
inductive BodyM where
  | noBody : BodyM
  | textBody : String → BodyM
  | bytesBody : String → BodyM
  | formBody : List (String × String) → BodyM

/-- The runtime type of the `invoke` input, mirroring the `instanceof` and
`typeof` dispatch of `defaultRequestTransform`: a Blob (which covers File),
an ArrayBuffer, a string, a FormData, or any other value (the JSON case;
strings only ever enter through `strInput`). -/
inductive InputData where
  | blobInput : String → InputData
  | bufferInput : String → InputData
  | strInput : String → InputData
  | formInput : List (String × String) → InputData
  | jsonInput : Value → InputData

/-- The `RequestInit` fields produced by a request transform. -/
structure RequestInitM where
  headers : HeaderList
  body : BodyM

/-- Model of `defaultRequestTransform`: Blob or ArrayBuffer is sent raw with
`application/octet-stream`; a string raw with `text/plain`; FormData with the
`Content-Type` deleted (the transport generates the boundary); anything else
is `JSON.stringify`-ed with `application/json`.  A throwing
`JSON.stringify` propagates as the thrown value. -/
def defaultRequestTransform (data : InputData) : Except JSVal RequestInitM :=
  match data with
  | InputData.blobInput c =>
    Except.ok ⟨hset [] "Content-Type" "application/octet-stream", BodyM.bytesBody c⟩
  | InputData.bufferInput c =>
    Except.ok ⟨hset [] "Content-Type" "application/octet-stream", BodyM.bytesBody c⟩
  | InputData.strInput s =>
    Except.ok ⟨hset [] "Content-Type" "text/plain", BodyM.textBody s⟩
  | InputData.formInput f =>
    Except.ok ⟨hdelete [] "Content-Type", BodyM.formBody f⟩
  | InputData.jsonInput v =>
    match jsonStringify v with
    | Except.ok s => Except.ok ⟨hset [] "Content-Type" "application/json", BodyM.textBody s⟩
    | Except.error e => Except.error e

/-- A fetch `Response`: status, status text, headers and the raw body.  The
body readers are modelled on top of the raw body: `text()` is the body
itself, `json()` is `jsonParse`, `blob()` wraps it as a Blob, `formData()`
wraps it as a form container. -/
structure Response where
  status : Nat
  statusText : String
  headers : HeaderList
  body : String

/-- Model of `Response.ok`: status in the 2xx range. -/
def responseOk (r : Response) : Bool :=
  decide (200 ≤ r.status ∧ r.status ≤ 299)

/-- Model of `String.prototype.split` with separator `"; "` (the exact
two-character separator used by `defaultResponseTransform`). -/
def splitContentType : List Char → List (List Char)
  | [] => [[]]
  | ';' :: ' ' :: rest => [] :: splitContentType rest
  | c :: rest =>
    match splitContentType rest with
    | h :: t => (c :: h) :: t
    | [] => [[c]]

/-- Model of `defaultResponseTransform`: read the `Content-Type` header,
split it on `"; "`, and dispatch — absent header or a `application/json`
part means JSON parse, then `application/octet-stream` (Blob), `text/plain`
(text), `multipart/form-data` (form container); otherwise throw. -/
def defaultResponseTransform (response : Response) : Except JSVal JSVal :=
  match hget response.headers "Content-Type" with
  | none => (jsonParse response.body).map JSVal.value
  | some ct =>
    let responseTypes := (splitContentType ct.toList).map String.mk
    if responseTypes.contains "application/json" then
      (jsonParse response.body).map JSVal.value
    else if responseTypes.contains "application/octet-stream" then
      Except.ok (JSVal.blobData response.body)
    else if responseTypes.contains "text/plain" then
      Except.ok (JSVal.value (Value.vStr response.body))
    else if responseTypes.contains "multipart/form-data" then
      Except.ok (JSVal.formDataVal response.body)
    else
      Except.error
        (strVal "Error: Unable to deserialize the response as no suitable Content-Type header was found")

/-- The transform-based client: base URL, persistent header set, and the
throw-on-error flag.  The transport is passed where the code reads
`this.fetch`, so deterministic fakes can be substituted as the code allows
via `customFetch`. -/
structure FunctionsClientT where
  url : URLModel
  headers : HeaderList
  shouldThrowOnError : Bool

/-- Model of `setAuth`: sets `Authorization: Bearer <token>` on the client
header set. -/
def setAuth (c : FunctionsClientT) (token : String) : FunctionsClientT :=
  ⟨c.url, hset c.headers "Authorization" ("Bearer " ++ token), c.shouldThrowOnError⟩

/-- The assembled request handed to the transport. -/
structure RequestM where
  url : URLModel
  method : String
  headers : HeaderList
  body : BodyM

/-- The invoke options of the transform-based client: a request transform
and a response transform (either may throw, modelled by `Except`). -/
structure FunctionInvokeOptionsT where
  requestTransform : InputData → Except JSVal RequestInitM
  responseTransform : Response → Except JSVal JSVal

def reqTransformOf : Option FunctionInvokeOptionsT → (InputData → Except JSVal RequestInitM)
  | some o => o.requestTransform
  | none => defaultRequestTransform

def respTransformOf : Option FunctionInvokeOptionsT → (Response → Except JSVal JSVal)
  | some o => o.responseTransform
  | none => defaultResponseTransform

/-- The transport: a fetch-compatible function from a request to a response;
a transport exception or rejection is the `error` case. -/
abbrev Transport := RequestM → Except JSVal Response

/-- The serialization step of `invoke`: run the request transform, force the
method to `POST`, `set` every client header over the transform headers,
resolve the function name against the base URL and assemble the request.
Any throw inside this region surfaces as the `Except.error` case. -/
def buildRequest (c : FunctionsClientT) (functionName : String) (input : InputData)
    (rt : InputData → Except JSVal RequestInitM) : Except JSVal RequestM :=
  match rt input with
  | Except.error e => Except.error e
  | Except.ok requestInit =>
    Except.ok ⟨resolveURL functionName c.url, "POST",
      mergeHeaders c.headers requestInit.headers, requestInit.body⟩

/-- The response-side steps of `invoke`, in source order: the relay-error
check on the `x-relay-error` header, then deserialization through the
response transform, then the non-2xx status check. -/
def handleResponse (rt : Response → Except JSVal JSVal) (response : Response) :
    Except ErrObj JSVal :=
  if hget response.headers "x-relay-error" = some "true" then
    Except.error (mkRelayError (strVal response.body))
  else
    match rt response with
    | Except.error e => Except.error (mkDeserializationError e)
    | Except.ok data =>
      if responseOk response then Except.ok data
      else Except.error (mkHttpError response.status response.statusText data)

/-- The body of `invoke` up to (but not including) the final
catch: serialization, transport call, relay check, deserialization, status
check, each failure mapped to its error class exactly as in the source. -/
def invokeBody (c : FunctionsClientT) (transport : Transport) (functionName : String)
    (input : InputData) (opts : Option FunctionInvokeOptionsT) : Except ErrObj JSVal :=
  match buildRequest c functionName input (reqTransformOf opts) with
  | Except.error e => Except.error (mkSerializationError e)
  | Except.ok request =>
    match transport request with
    | Except.error e => Except.error (mkFetchError e)
    | Except.ok response => handleResponse (respTransformOf opts) response

/-- The result value of `invoke`: the `data` field holds a JavaScript value
(`null` is `JSVal.value Value.vNull`), the `error` field is `null` (`none`)
or an error object. -/
structure FunctionsResponseT where
  data : JSVal
  error : Option ErrObj

/-- What an `invoke` call does at its boundary: either raise an exception or
return a result value. -/
inductive InvokeOutcome where
  | thrown : ErrObj → InvokeOutcome
  | returned : FunctionsResponseT → InvokeOutcome

/-- Model of `invoke` of the transform-based client, including the single
outer catch: an inner error is rethrown when `shouldThrowOnError` is set and
otherwise wrapped as `{data: null, error}`. -/
def invokeT (c : FunctionsClientT) (transport : Transport) (functionName : String)
    (input : InputData) (opts : Option FunctionInvokeOptionsT) : InvokeOutcome :=
  match invokeBody c transport functionName input opts with
  | Except.ok data => InvokeOutcome.returned ⟨data, none⟩
  | Except.error e =>
    if c.shouldThrowOnError then InvokeOutcome.thrown e
    else InvokeOutcome.returned ⟨JSVal.value Value.vNull, some e⟩

/-! The responseType-based client of src/index.ts.

Headers here are a plain record (case-sensitive string keys) merged with
`Object.assign`; `responseType` selects the body reader; the failure result
carries `status`/`statusText` only when truthy. -/

abbrev RecordS := List (String × String)

/-- Property assignment on a plain-object record: overwrite an existing key
(exact, case-sensitive match) or append. -/
def recSet (r : RecordS) (k v : String) : RecordS :=
  if r.any (fun p => p.1 == k) then
    r.map (fun p => if p.1 == k then (k, v) else p)
  else r ++ [(k, v)]

def recGet (r : RecordS) (k : String) : Option String :=
  (r.find? (fun p => p.1 == k)).map (fun p => p.2)

/-- Model of `Object.assign(base, extra)`: every own property of `extra` is
assigned onto `base` in order. -/
def assignRecord (base extra : RecordS) : RecordS :=
  extra.foldl (fun acc p => recSet acc p.1 p.2) base

structure FunctionsClientR where
  url : String
  headers : RecordS
  shouldThrowOnError : Bool

/-- Model of `setAuth` of the record-header client. -/
def setAuthR (c : FunctionsClientR) (token : String) : FunctionsClientR :=
  ⟨c.url, recSet c.headers "Authorization" ("Bearer " ++ token), c.shouldThrowOnError⟩

/-- Invoke options of the responseType-based client; the body is carried
opaquely, `responseType` is the raw option string (absent means JSON). -/
structure FunctionInvokeOptionsR where
  headers : RecordS
  body : Option String
  responseType : Option String

def optsHeadersR : Option FunctionInvokeOptionsR → RecordS
  | some o => o.headers
  | none => []

def optsBodyR : Option FunctionInvokeOptionsR → Option String
  | some o => o.body
  | none => none

def optsResponseTypeR : Option FunctionInvokeOptionsR → Option String
  | some o => o.responseType
  | none => none

/-- The request of the record-header client: URL template string, method,
record headers and opaque body. -/
structure RequestR where
  url : String
  method : String
  headers : RecordS
  body : Option String

abbrev TransportR := RequestR → Except JSVal Response

/-- The request assembled by the fetch call of `invoke`: the URL is the
template `this.url + "/" + functionName`, and the headers are
`Object.assign(\x7b\x7d, this.headers, perCallHeaders)` — the per-call
headers are assigned last. -/
def buildRequestR (c : FunctionsClientR) (functionName : String)
    (opts : Option FunctionInvokeOptionsR) : RequestR :=
  ⟨c.url ++ "/" ++ functionName, "POST",
    assignRecord (assignRecord [] c.headers) (optsHeadersR opts), optsBodyR opts⟩

/-- The `responseType` dispatch of `invoke`: absent or `json` parses JSON,
`arrayBuffer` and `blob` read binary, anything else reads text. -/
def parseByTypeR (rt : Option String) (response : Response) : Except JSVal JSVal :=
  match rt with
  | none => (jsonParse response.body).map JSVal.value
  | some s =>
    if s == "json" then (jsonParse response.body).map JSVal.value
    else if s == "arrayBuffer" then Except.ok (JSVal.bufferData response.body)
    else if s == "blob" then Except.ok (JSVal.blobData response.body)
    else Except.ok (JSVal.value (Value.vStr response.body))

/-- Errors thrown inside the responseType-based `invoke`: either an
arbitrary thrown value (relay `Error`, JSON parse error, transport
rejection) or the local `FunctionsError` class carrying the parsed data. -/
inductive ErrR where
  | thrownVal : JSVal → ErrR
  | functionsErrR : JSVal → ErrR

/-- The result of the responseType-based `invoke`: data, error, and the
optional `status`/`statusText` fields. -/
structure FunctionsResponseR where
  data : JSVal
  error : Option ErrR
  status : Option Nat
  statusText : Option String

inductive InvokeOutcomeR where
  | thrownR : ErrR → InvokeOutcomeR
  | returnedR : FunctionsResponseR → InvokeOutcomeR

/-- JavaScript truthiness filter for the captured numeric status: `0` (and
an unassigned variable) is falsy, so the field is not added. -/
def truthyNat : Option Nat → Option Nat
  | some n => if n = 0 then none else some n
  | none => none

/-- JavaScript truthiness filter for the captured status text: the empty
string (and an unassigned variable) is falsy, so the field is not added. -/
def truthyStr : Option String → Option String
  | some s => if s = "" then none else some s
  | none => none

/-- The catch block of the responseType-based `invoke`: rethrow when the
flag is set, otherwise return the failure result, adding `status` and
`statusText` only when truthy. -/
def deliverR (c : FunctionsClientR) (status : Option Nat) (statusText : Option String)
    (e : ErrR) : InvokeOutcomeR :=
  if c.shouldThrowOnError then InvokeOutcomeR.thrownR e
  else InvokeOutcomeR.returnedR
    ⟨JSVal.value Value.vNull, some e, truthyNat status, truthyStr statusText⟩

/-- Model of `invoke` of the responseType-based client: fetch, capture
`status`/`statusText`, relay check, `responseType` dispatch, status check,
success; every thrown error funnels into `deliverR` with whatever
`status`/`statusText` had been captured at the time of the throw. -/
def invokeR (c : FunctionsClientR) (transport : TransportR) (functionName : String)
    (opts : Option FunctionInvokeOptionsR) : InvokeOutcomeR :=
  match transport (buildRequestR c functionName opts) with
  | Except.error e => deliverR c none none (ErrR.thrownVal e)
  | Except.ok response =>
    if hget response.headers "x-relay-error" = some "true" then
      deliverR c (some response.status) (some response.statusText)
        (ErrR.thrownVal (strVal response.body))
    else
      match parseByTypeR (optsResponseTypeR opts) response with
      | Except.error e =>
        deliverR c (some response.status) (some response.statusText) (ErrR.thrownVal e)
      | Except.ok data =>
        if responseOk response then
          InvokeOutcomeR.returnedR
            ⟨data, none, some response.status, some response.statusText⟩
        else
          deliverR c (some response.status) (some response.statusText)
            (ErrR.functionsErrR data)

/-! Supporting lemmas about the header models. -/

/-- Filtering out every entry with key `k` leaves nothing for `find?` at `k`
to return. -/
theorem find?_filter_none (h : HeaderList) (k : String) :
    (h.filter (fun p => !(p.1 == k))).find? (fun p => p.1 == k) = none := by
  induction h with
  | nil => rfl
  | cons a t ih =>
    cases hk : (a.1 == k) with
    | true => simp [List.filter_cons, hk, ih]
    | false => simp [List.filter_cons, hk, List.find?_cons, ih]

/-- Reading a header right after `Headers.set` under any capitalization of
the same name yields the value just set. -/
theorem hget_hset_eq (h : HeaderList) (n m v : String) (hnm : lowerName m = lowerName n) :
    hget (hset h n v) m = some v := by
  unfold hget hset
  rw [hnm, List.find?_append, find?_filter_none]
  simp [List.find?]

/-- After `setAuth` the client header set carries exactly one Authorization
entry, and the merge loop sets it over whatever the request transform
produced, so the merged headers always answer `Bearer <token>`. -/
theorem mergeHeaders_auth (client req : HeaderList) (token : String) :
    hget (mergeHeaders (hset client "Authorization" ("Bearer " ++ token)) req) "Authorization"
      = some ("Bearer " ++ token) := by
  unfold mergeHeaders hset
  rw [List.foldl_append]
  simp only [List.foldl_cons, List.foldl_nil]
  exact hget_hset_eq _ _ _ _ (by rfl)

/-! Claim theorems. -/

/-- C1 (amended): in the transform-based client the Invoker's persistent
header set is written over the headers produced by the request transform, so
after `setAuth token` the request observed by the transport always carries
`Authorization: Bearer token`, whatever Authorization the transform tried to
set.  (The original claim fails in the `src/index.ts` variant, see the
counterexample: there per-call headers are assigned last and win.)  The
transport here echoes the Authorization header it receives back as the
response body, so the conclusion exhibits the transported header. -/
theorem c1_auth_precedence (c : FunctionsClientT) (token fn : String)
    (reqh : HeaderList) (b : BodyM) (input : InputData) :
    invokeT (setAuth c token)
      (fun req => Except.ok ⟨200, "OK", [("content-type", "text/plain")],
        (hget req.headers "Authorization").getD ""⟩)
      fn input
      (some ⟨fun _ => Except.ok ⟨reqh, b⟩, fun r => Except.ok (JSVal.value (Value.vStr r.body))⟩)
      = InvokeOutcome.returned ⟨JSVal.value (Value.vStr ("Bearer " ++ token)), none⟩ := by
  have key := mergeHeaders_auth c.headers reqh token
  show InvokeOutcome.returned
      ⟨JSVal.value (Value.vStr ((hget (mergeHeaders (hset c.headers "Authorization"
        ("Bearer " ++ token)) reqh) "Authorization").getD "")), none⟩
    = InvokeOutcome.returned ⟨JSVal.value (Value.vStr ("Bearer " ++ token)), none⟩
  rw [key]
  rfl

/-- C1 witness: the precedence theorem evaluated at a concrete client whose
transform sets `Authorization: Bearer evil`; the transported header is still
`Bearer tok`. -/
theorem c1_witness :
    invokeT (setAuth ⟨⟨"https", "proj.supabase.co", "/"⟩, [], false⟩ "tok")
      (fun req => Except.ok ⟨200, "OK", [("content-type", "text/plain")],
        (hget req.headers "Authorization").getD ""⟩)
      "fn" (InputData.strInput "x")
      (some ⟨fun _ => Except.ok ⟨hset [] "Authorization" "Bearer evil", BodyM.noBody⟩,
             fun r => Except.ok (JSVal.value (Value.vStr r.body))⟩)
      = InvokeOutcome.returned ⟨JSVal.value (Value.vStr "Bearer tok"), none⟩ :=
  c1_auth_precedence ⟨⟨"https", "proj.supabase.co", "/"⟩, [], false⟩ "tok" "fn"
    (hset [] "Authorization" "Bearer evil") BodyM.noBody (InputData.strInput "x")

/-- C1 counterexample: in the `src/index.ts` variant the per-call headers are
merged by `Object.assign` after the client's own headers, so a caller who
passes `Authorization: Bearer evil` after `setAuth "tok"` sends `Bearer
evil` to the transport (echoed back as the body here), refuting the claim
that the Invoker's Authorization always wins. -/
theorem c1_counterexample :
    invokeR (setAuthR ⟨"https://proj.supabase.co", [], false⟩ "tok")
      (fun req => Except.ok ⟨200, "OK", [("content-type", "text/plain")],
        (recGet req.headers "Authorization").getD ""⟩)
      "fn" (some ⟨[("Authorization", "Bearer evil")], none, some "text"⟩)
      = InvokeOutcomeR.returnedR
          ⟨JSVal.value (Value.vStr "Bearer evil"), none, some 200, some "OK"⟩
    ∧ "Bearer evil" ≠ "Bearer tok" :=
  ⟨rfl, by decide⟩

/-- C2: whenever the transport returns a response whose `x-relay-error`
header equals `"true"`, `invoke` produces the Relay error carrying the body
text — for every status (2xx included), every Content-Type and every
response transform (which is never consulted), and before the status
check. -/
theorem c2_relay_precedence (c : FunctionsClientT) (t : Transport) (fn : String)
    (input : InputData) (opts : Option FunctionInvokeOptionsT) (req : RequestM)
    (response : Response)
    (hreq : buildRequest c fn input (reqTransformOf opts) = Except.ok req)
    (hresp : t req = Except.ok response)
    (hrelay : hget response.headers "x-relay-error" = some "true") :
    invokeBody c t fn input opts = Except.error (mkRelayError (strVal response.body))
    ∧ invokeT c t fn input opts =
        (if c.shouldThrowOnError then InvokeOutcome.thrown (mkRelayError (strVal response.body))
         else InvokeOutcome.returned
           ⟨JSVal.value Value.vNull, some (mkRelayError (strVal response.body))⟩) := by
  have hbody : invokeBody c t fn input opts
      = Except.error (mkRelayError (strVal response.body)) := by
    unfold invokeBody
    rw [hreq]
    dsimp only
    rw [hresp]
    dsimp only
    unfold handleResponse
    rw [if_pos hrelay]
  refine ⟨hbody, ?_⟩
  unfold invokeT
  rw [hbody]

/-- C2 witness: a 200 response with JSON Content-Type but `x-relay-error:
true`, against a response transform that would throw — the result is still
the Relay error with the body text. -/
theorem c2_witness :
    invokeT ⟨⟨"https", "proj.supabase.co", "/"⟩, [], false⟩
      (fun _ => Except.ok ⟨200, "OK",
        [("x-relay-error", "true"), ("content-type", "application/json")], "relay failed"⟩)
      "fn" (InputData.strInput "x")
      (some ⟨fun _ => Except.ok ⟨[], BodyM.noBody⟩,
             fun _ => Except.error (strVal "transform must not run")⟩)
      = InvokeOutcome.returned
          ⟨JSVal.value Value.vNull, some (mkRelayError (strVal "relay failed"))⟩ := by
  have h := c2_relay_precedence ⟨⟨"https", "proj.supabase.co", "/"⟩, [], false⟩
    (fun _ => Except.ok ⟨200, "OK",
      [("x-relay-error", "true"), ("content-type", "application/json")], "relay failed"⟩)
    "fn" (InputData.strInput "x")
    (some ⟨fun _ => Except.ok ⟨[], BodyM.noBody⟩,
           fun _ => Except.error (strVal "transform must not run")⟩)
    ⟨⟨"https", "proj.supabase.co", "/fn"⟩, "POST", [], BodyM.noBody⟩
    ⟨200, "OK", [("x-relay-error", "true"), ("content-type", "application/json")], "relay failed"⟩
    rfl rfl rfl
  simpa using h.2

/-- C3: a 403 response with a JSON body that parses successfully makes
`invoke` produce the HttpError with the right status and status text — but
the parsed body lands in the error object's `name` field and its `context`
is `undefined`, because `HttpError`'s `super` call passes the context in the
name position; the claim (and spec) say the body is the context payload. -/
theorem c3_http_error_context_bug :
    invokeBody ⟨⟨"https", "proj.supabase.co", "/"⟩, [], false⟩
      (fun _ => Except.ok ⟨403, "Forbidden",
        [("content-type", "application/json")], "\x7b\"reason\":\"nope\"\x7d"⟩)
      "fn" (InputData.strInput "x") none
      = Except.error (mkHttpError 403 "Forbidden"
          (JSVal.value (Value.vObj [("reason", Value.vStr "nope")])))
    ∧ (mkHttpError 403 "Forbidden"
        (JSVal.value (Value.vObj [("reason", Value.vStr "nope")]))).context = none
    ∧ (mkHttpError 403 "Forbidden"
        (JSVal.value (Value.vObj [("reason", Value.vStr "nope")]))).errName
        = JSVal.value (Value.vObj [("reason", Value.vStr "nope")])
    ∧ (mkHttpError 403 "Forbidden"
        (JSVal.value (Value.vObj [("reason", Value.vStr "nope")]))).status = some 403
    ∧ (mkHttpError 403 "Forbidden"
        (JSVal.value (Value.vObj [("reason", Value.vStr "nope")]))).statusText
        = some "Forbidden" :=
  ⟨rfl, rfl, rfl, rfl, rfl⟩

/-- C4: default serialization by runtime type — Blob and ArrayBuffer are
sent raw with `application/octet-stream`, a string raw with `text/plain`, a
FormData with no Content-Type set by the library, and any other value
JSON-encoded with `application/json`. -/
theorem c4_default_serialization (bytes s enc : String)
    (fields : List (String × String)) (v : Value)
    (henc : jsonStringify v = Except.ok enc) :
    defaultRequestTransform (InputData.blobInput bytes)
      = Except.ok ⟨[("content-type", "application/octet-stream")], BodyM.bytesBody bytes⟩
    ∧ defaultRequestTransform (InputData.bufferInput bytes)
      = Except.ok ⟨[("content-type", "application/octet-stream")], BodyM.bytesBody bytes⟩
    ∧ defaultRequestTransform (InputData.strInput s)
      = Except.ok ⟨[("content-type", "text/plain")], BodyM.textBody s⟩
    ∧ defaultRequestTransform (InputData.formInput fields)
      = Except.ok ⟨[], BodyM.formBody fields⟩
    ∧ defaultRequestTransform (InputData.jsonInput v)
      = Except.ok ⟨[("content-type", "application/json")], BodyM.textBody enc⟩ := by
  refine ⟨rfl, rfl, rfl, rfl, ?_⟩
  unfold defaultRequestTransform
  dsimp only
  rw [henc]
  rfl

/-- C4 witness: the JSON case evaluated at the object with one field `a`. -/
theorem c4_witness :
    jsonStringify (Value.vObj [("a", Value.vNum 1)]) = Except.ok "\x7b\"a\":1\x7d"
    ∧ defaultRequestTransform (InputData.jsonInput (Value.vObj [("a", Value.vNum 1)]))
      = Except.ok ⟨[("content-type", "application/json")], BodyM.textBody "\x7b\"a\":1\x7d"⟩ :=
  ⟨rfl, (c4_default_serialization "b" "s" "\x7b\"a\":1\x7d" []
    (Value.vObj [("a", Value.vNum 1)]) rfl).2.2.2.2⟩

/-- C5 counterexample: the code splits the Content-Type on the
two-character separator (semicolon followed by a space), not on the
semicolon alone, so the valid header `application/json;charset=utf-8` is
not recognized and yields the deserialization failure even though its body
parses as JSON — the claim predicts a successful JSON parse here. -/
theorem c5_counterexample :
    defaultResponseTransform
      ⟨200, "OK", [("content-type", "application/json;charset=utf-8")], "null"⟩
      = Except.error
        (strVal "Error: Unable to deserialize the response as no suitable Content-Type header was found")
    ∧ jsonParse "null" = Except.ok Value.vNull
    ∧ invokeT ⟨⟨"https", "proj.supabase.co", "/"⟩, [], false⟩
        (fun _ => Except.ok
          ⟨200, "OK", [("content-type", "application/json;charset=utf-8")], "null"⟩)
        "fn" (InputData.strInput "x") none
      = InvokeOutcome.returned ⟨JSVal.value Value.vNull,
          some (mkDeserializationError
            (strVal "Error: Unable to deserialize the response as no suitable Content-Type header was found"))⟩ :=
  ⟨rfl, rfl, rfl⟩

/-- C5 (amended): default deserialization dispatches on the parts of the
Content-Type split on the exact separator `"; "` (semicolon + space): a
`application/json` part means JSON parse, else `application/octet-stream`
means a blob, else `text/plain` means text, else `multipart/form-data`
means a form container, else the deserialization failure; an absent
Content-Type defaults to JSON parse. -/
theorem c5_default_deserialization (r : Response) (ct : String) :
    (hget r.headers "Content-Type" = none →
      defaultResponseTransform r = (jsonParse r.body).map JSVal.value)
    ∧ (hget r.headers "Content-Type" = some ct →
        (((splitContentType ct.toList).map String.mk).contains "application/json" = true →
          defaultResponseTransform r = (jsonParse r.body).map JSVal.value)
        ∧ (((splitContentType ct.toList).map String.mk).contains "application/json" = false →
            ((splitContentType ct.toList).map String.mk).contains "application/octet-stream" = true →
            defaultResponseTransform r = Except.ok (JSVal.blobData r.body))
        ∧ (((splitContentType ct.toList).map String.mk).contains "application/json" = false →
            ((splitContentType ct.toList).map String.mk).contains "application/octet-stream" = false →
            ((splitContentType ct.toList).map String.mk).contains "text/plain" = true →
            defaultResponseTransform r = Except.ok (JSVal.value (Value.vStr r.body)))
        ∧ (((splitContentType ct.toList).map String.mk).contains "application/json" = false →
            ((splitContentType ct.toList).map String.mk).contains "application/octet-stream" = false →
            ((splitContentType ct.toList).map String.mk).contains "text/plain" = false →
            ((splitContentType ct.toList).map String.mk).contains "multipart/form-data" = true →
            defaultResponseTransform r = Except.ok (JSVal.formDataVal r.body))
        ∧ (((splitContentType ct.toList).map String.mk).contains "application/json" = false →
            ((splitContentType ct.toList).map String.mk).contains "application/octet-stream" = false →
            ((splitContentType ct.toList).map String.mk).contains "text/plain" = false →
            ((splitContentType ct.toList).map String.mk).contains "multipart/form-data" = false →
            defaultResponseTransform r = Except.error
              (strVal "Error: Unable to deserialize the response as no suitable Content-Type header was found"))) := by
  constructor
  · intro h
    unfold defaultResponseTransform
    rw [h]
  · intro h
    unfold defaultResponseTransform
    rw [h]
    dsimp only
    refine ⟨?_, ?_, ?_, ?_, ?_⟩
    · intro h1
      rw [if_pos h1]
    · intro h1 h2
      rw [if_neg (by rw [h1]; exact Bool.false_ne_true), if_pos h2]
    · intro h1 h2 h3
      rw [if_neg (by rw [h1]; exact Bool.false_ne_true),
        if_neg (by rw [h2]; exact Bool.false_ne_true), if_pos h3]
    · intro h1 h2 h3 h4
      rw [if_neg (by rw [h1]; exact Bool.false_ne_true),
        if_neg (by rw [h2]; exact Bool.false_ne_true),
        if_neg (by rw [h3]; exact Bool.false_ne_true), if_pos h4]
    · intro h1 h2 h3 h4
      rw [if_neg (by rw [h1]; exact Bool.false_ne_true),
        if_neg (by rw [h2]; exact Bool.false_ne_true),
        if_neg (by rw [h3]; exact Bool.false_ne_true),
        if_neg (by rw [h4]; exact Bool.false_ne_true)]

/-- C5 witness: `text/plain; charset=utf-8` (with the space) is split into
two parts and read as text. -/
theorem c5_witness :
    defaultResponseTransform
      ⟨200, "OK", [("content-type", "text/plain; charset=utf-8")], "hello"⟩
      = Except.ok (JSVal.value (Value.vStr "hello")) :=
  ((c5_default_deserialization
    ⟨200, "OK", [("content-type", "text/plain; charset=utf-8")], "hello"⟩
    "text/plain; charset=utf-8").2 rfl).2.2.1 rfl rfl rfl

/-- C6: for every error produced inside `invoke` (all five kinds flow
through the single `Except.error` of `invokeBody`), the single outer catch
decides uniformly: flag off returns `\x7bdata: null, error\x7d` and never
raises, flag on raises and never returns. -/
theorem c6_error_delivery (c : FunctionsClientT) (t : Transport) (fn : String)
    (input : InputData) (opts : Option FunctionInvokeOptionsT) (e : ErrObj)
    (h : invokeBody c t fn input opts = Except.error e) :
    (c.shouldThrowOnError = false →
      invokeT c t fn input opts
        = InvokeOutcome.returned ⟨JSVal.value Value.vNull, some e⟩)
    ∧ (c.shouldThrowOnError = true → invokeT c t fn input opts = InvokeOutcome.thrown e)
    ∧ (c.shouldThrowOnError = false →
        ∀ e2, invokeT c t fn input opts ≠ InvokeOutcome.thrown e2)
    ∧ (c.shouldThrowOnError = true →
        ∀ r, invokeT c t fn input opts ≠ InvokeOutcome.returned r) := by
  unfold invokeT
  rw [h]
  dsimp only
  refine ⟨fun hf => by simp [hf], fun hf => by simp [hf],
    fun hf e2 => by simp [hf], fun hf r => by simp [hf]⟩

/-- C6 witness: a transport failure with the flag off is returned as the
failure value. -/
theorem c6_witness :
    invokeT ⟨⟨"https", "proj.supabase.co", "/"⟩, [], false⟩
      (fun _ => Except.error (strVal "ECONNREFUSED")) "fn" (InputData.strInput "x") none
      = InvokeOutcome.returned
        ⟨JSVal.value Value.vNull, some (mkFetchError (strVal "ECONNREFUSED"))⟩ :=
  (c6_error_delivery ⟨⟨"https", "proj.supabase.co", "/"⟩, [], false⟩
    (fun _ => Except.error (strVal "ECONNREFUSED")) "fn" (InputData.strInput "x") none
    (mkFetchError (strVal "ECONNREFUSED")) rfl).1 rfl

/-- C7: when the serialization step fails (the transform throws or
`JSON.stringify` throws), `invoke` reports the Serialization error with the
underlying cause, and the outcome is the same for every transport — the
transport is never consulted. -/
theorem c7_serialization_no_fetch (c : FunctionsClientT) (fn : String) (input : InputData)
    (opts : Option FunctionInvokeOptionsT) (e : JSVal)
    (h : buildRequest c fn input (reqTransformOf opts) = Except.error e) :
    (∀ t, invokeBody c t fn input opts = Except.error (mkSerializationError e))
    ∧ (∀ t, invokeT c t fn input opts =
        (if c.shouldThrowOnError then InvokeOutcome.thrown (mkSerializationError e)
         else InvokeOutcome.returned
           ⟨JSVal.value Value.vNull, some (mkSerializationError e)⟩))
    ∧ (∀ t1 t2, invokeT c t1 fn input opts = invokeT c t2 fn input opts) := by
  have hb : ∀ t, invokeBody c t fn input opts = Except.error (mkSerializationError e) := by
    intro t
    unfold invokeBody
    rw [h]
  refine ⟨hb, fun t => ?_, fun t1 t2 => ?_⟩
  · unfold invokeT
    rw [hb t]
  · unfold invokeT
    rw [hb t1, hb t2]

/-- C7 witness: a BigInt input makes the default transform's
`JSON.stringify` throw; the result is the Serialization error even though
the transport would have answered. -/
theorem c7_witness :
    invokeBody ⟨⟨"https", "proj.supabase.co", "/"⟩, [], false⟩
      (fun _ => Except.ok ⟨200, "OK", [], "null"⟩) "fn"
      (InputData.jsonInput (Value.vBigInt 0)) none
      = Except.error (mkSerializationError
          (strVal "TypeError: Do not know how to serialize a BigInt")) :=
  (c7_serialization_no_fetch ⟨⟨"https", "proj.supabase.co", "/"⟩, [], false⟩ "fn"
    (InputData.jsonInput (Value.vBigInt 0)) none
    (strVal "TypeError: Do not know how to serialize a BigInt") rfl).1
    (fun _ => Except.ok ⟨200, "OK", [], "null"⟩)

/-- C8 counterexample: `new URL(functionName, base)` follows standard URL
resolution, so a function name that is itself an absolute URL replaces the
host — the transport (echoing the request host as the body) receives a
request for `evil.com`, outside the base host `proj.supabase.co`, refuting
the no-host-escape claim.  The same escape happens for a backslash-prefixed
name, since for special schemes the WHATWG parser treats `\` like `/` and
starts an authority. -/
theorem c8_counterexample :
    invokeT ⟨⟨"https", "proj.supabase.co", "/"⟩, [], false⟩
      (fun req => Except.ok ⟨200, "OK", [("content-type", "text/plain")], req.url.host⟩)
      "https://evil.com/fn" (InputData.strInput "x") none
      = InvokeOutcome.returned ⟨JSVal.value (Value.vStr "evil.com"), none⟩
    ∧ resolveURL "https://evil.com/fn" ⟨"https", "proj.supabase.co", "/"⟩
      = ⟨"https", "evil.com", "/fn"⟩
    ∧ invokeT ⟨⟨"https", "proj.supabase.co", "/"⟩, [], false⟩
        (fun req => Except.ok ⟨200, "OK", [("content-type", "text/plain")], req.url.host⟩)
        "\\\\evil.com/fn" (InputData.strInput "x") none
      = InvokeOutcome.returned ⟨JSVal.value (Value.vStr "evil.com"), none⟩
    ∧ resolveURL "\\\\evil.com/fn" ⟨"https", "proj.supabase.co", "/"⟩
      = ⟨"https", "evil.com", "/fn"⟩
    ∧ resolveURL "/\\evil.com/fn" ⟨"https", "proj.supabase.co", "/"⟩
      = ⟨"https", "evil.com", "/fn"⟩
    ∧ "evil.com" ≠ "proj.supabase.co" :=
  ⟨rfl, rfl, rfl, rfl, rfl, by decide⟩

/-- C8 (amended): resolution follows WHATWG URL-join semantics; a function
name that carries no scheme of its own and does not begin, after the WHATWG
whitespace preprocessing, with two slash-like characters (each one `/` or
`\`) resolves to the base URL's host and scheme.  A function name that is
an absolute URL, or that begins with two slash-like characters — including
the backslash forms `\\`, `/\`, `\/`, which special-scheme parsing treats
as starting an authority — replaces the host, so the resolved URL can point
outside the intended host. -/
theorem c8_host_preservation (fn : String) (base : URLModel)
    (h1 : hasScheme fn = false) (h2 : startsWithTwoSlashLike fn = false) :
    (resolveURL fn base).host = base.host ∧ (resolveURL fn base).scheme = base.scheme := by
  have hs : schemeSplit (preprocessURLInput fn) = none := by
    cases hc : schemeSplit (preprocessURLInput fn) with
    | none => rfl
    | some p =>
      unfold hasScheme at h1
      rw [hc] at h1
      simp at h1
  unfold startsWithTwoSlashLike at h2
  unfold resolveURL
  rw [hs]
  dsimp only
  cases hl : preprocessURLInput fn with
  | nil =>
    exact ⟨rfl, rfl⟩
  | cons c1 tl =>
    cases tl with
    | nil =>
      dsimp only
      by_cases hsl : isSlashLike c1 = true
      · rw [if_pos hsl]
        exact ⟨rfl, rfl⟩
      · rw [if_neg hsl]
        exact ⟨rfl, rfl⟩
    | cons c2 rest2 =>
      rw [hl] at h2
      dsimp only at h2
      dsimp only
      rw [if_neg (by rw [h2]; exact Bool.false_ne_true)]
      by_cases hsl : isSlashLike c1 = true
      · rw [if_pos hsl]
        exact ⟨rfl, rfl⟩
      · rw [if_neg hsl]
        exact ⟨rfl, rfl⟩

/-- C8 witness: a plain function name stays on the base host. -/
theorem c8_witness :
    hasScheme "hello" = false ∧ startsWithTwoSlashLike "hello" = false
    ∧ (resolveURL "hello" ⟨"https", "proj.supabase.co", "/functions/v1"⟩).host
        = "proj.supabase.co" :=
  ⟨rfl, rfl, (c8_host_preservation "hello" ⟨"https", "proj.supabase.co", "/functions/v1"⟩
    rfl rfl).1⟩

/-- C9 counterexample: a 2xx response with Content-Type `application/json`
and body `null` deserializes to the JavaScript value `null`, so `invoke`
returns `\x7bdata: null, error: null\x7d` — both sides empty, refuting the
claim that exactly one side is always populated. -/
theorem c9_counterexample :
    invokeT ⟨⟨"https", "proj.supabase.co", "/"⟩, [], false⟩
      (fun _ => Except.ok ⟨200, "OK", [("content-type", "application/json")], "null"⟩)
      "fn" (InputData.strInput "x") none
      = InvokeOutcome.returned ⟨JSVal.value Value.vNull, none⟩ := rfl

/-- C9 (amended): every returned result is either a failure — data is null
and the error is present — or has a null error; in the success case the
data field is whatever was deserialized and may itself be null. -/
theorem c9_result_shape (c : FunctionsClientT) (t : Transport) (fn : String)
    (input : InputData) (opts : Option FunctionInvokeOptionsT) (r : FunctionsResponseT)
    (h : invokeT c t fn input opts = InvokeOutcome.returned r) :
    (∃ e, r.error = some e ∧ r.data = JSVal.value Value.vNull) ∨ r.error = none := by
  unfold invokeT at h
  cases hb : invokeBody c t fn input opts with
  | ok d =>
    rw [hb] at h
    dsimp only at h
    injection h with h2
    right
    rw [← h2]
  | error e =>
    rw [hb] at h
    dsimp only at h
    by_cases hf : c.shouldThrowOnError
    · rw [if_pos hf] at h
      exact absurd h (by simp)
    · rw [if_neg hf] at h
      injection h with h2
      left
      exact ⟨e, by rw [← h2], by rw [← h2]⟩

/-- C9 witness: the shape theorem evaluated at a failing invoke — the left
(failure) disjunct holds. -/
theorem c9_witness :
    (∃ e, (FunctionsResponseT.mk (JSVal.value Value.vNull)
        (some (mkFetchError (strVal "boom")))).error = some e
      ∧ (FunctionsResponseT.mk (JSVal.value Value.vNull)
        (some (mkFetchError (strVal "boom")))).data = JSVal.value Value.vNull)
    ∨ (FunctionsResponseT.mk (JSVal.value Value.vNull)
        (some (mkFetchError (strVal "boom")))).error = none :=
  c9_result_shape ⟨⟨"https", "proj.supabase.co", "/"⟩, [], false⟩
    (fun _ => Except.error (strVal "boom")) "fn" (InputData.strInput "x") none _ rfl

/-- A returned failure of the responseType-based catch block determines its
fields: data null, the thrown error, and the truthiness-filtered status and
status text; it also forces the throw flag off. -/
theorem deliverR_returned (c : FunctionsClientR) (st : Option Nat) (stt : Option String)
    (e : ErrR) (r : FunctionsResponseR)
    (h : deliverR c st stt e = InvokeOutcomeR.returnedR r) :
    r = ⟨JSVal.value Value.vNull, some e, truthyNat st, truthyStr stt⟩
    ∧ c.shouldThrowOnError = false := by
  unfold deliverR at h
  by_cases hf : c.shouldThrowOnError
  · rw [if_pos hf] at h
    exact absurd h (by simp)
  · rw [if_neg hf] at h
    injection h with h2
    exact ⟨h2.symm, by simpa using hf⟩

/-- C10: in the `src/index.ts` variant, a success result carries the
response's status and statusText unconditionally; a failure result carries
them only when a response was received and each value is truthy (status 0
and empty statusText are omitted); and when the transport threw, the
failure carries neither. -/
theorem c10_status_fields (c : FunctionsClientR) (t : TransportR) (fn : String)
    (o : Option FunctionInvokeOptionsR) :
    (∀ e, t (buildRequestR c fn o) = Except.error e → c.shouldThrowOnError = false →
      invokeR c t fn o = InvokeOutcomeR.returnedR
        ⟨JSVal.value Value.vNull, some (ErrR.thrownVal e), none, none⟩)
    ∧ (∀ resp r, t (buildRequestR c fn o) = Except.ok resp →
        invokeR c t fn o = InvokeOutcomeR.returnedR r →
        (r.error = none → r.status = some resp.status ∧ r.statusText = some resp.statusText)
        ∧ (r.error ≠ none → r.status = truthyNat (some resp.status)
            ∧ r.statusText = truthyStr (some resp.statusText))) := by
  constructor
  · intro e he hf
    unfold invokeR
    rw [he]
    dsimp only
    unfold deliverR
    rw [hf]
    rfl
  · intro resp r he hr
    unfold invokeR at hr
    rw [he] at hr
    dsimp only at hr
    by_cases hrelay : hget resp.headers "x-relay-error" = some "true"
    · rw [if_pos hrelay] at hr
      obtain ⟨hre, _⟩ := deliverR_returned _ _ _ _ _ hr
      subst hre
      exact ⟨fun h0 => by simp at h0, fun _ => ⟨rfl, rfl⟩⟩
    · rw [if_neg hrelay] at hr
      cases hp : parseByTypeR (optsResponseTypeR o) resp with
      | error e2 =>
        rw [hp] at hr
        dsimp only at hr
        obtain ⟨hre, _⟩ := deliverR_returned _ _ _ _ _ hr
        subst hre
        exact ⟨fun h0 => by simp at h0, fun _ => ⟨rfl, rfl⟩⟩
      | ok d =>
        rw [hp] at hr
        dsimp only at hr
        by_cases hok : responseOk resp
        · rw [if_pos hok] at hr
          injection hr with hre
          subst hre
          exact ⟨fun _ => ⟨rfl, rfl⟩, fun hne => absurd rfl hne⟩
        · rw [if_neg hok] at hr
          obtain ⟨hre, _⟩ := deliverR_returned _ _ _ _ _ hr
          subst hre
          exact ⟨fun h0 => by simp at h0, fun _ => ⟨rfl, rfl⟩⟩

/-- C10 witness: a transport failure yields a failure result with neither
status nor statusText. -/
theorem c10_witness :
    invokeR ⟨"https://proj.supabase.co", [], false⟩
      (fun _ => Except.error (strVal "network down")) "fn" none
      = InvokeOutcomeR.returnedR
        ⟨JSVal.value Value.vNull, some (ErrR.thrownVal (strVal "network down")), none, none⟩ :=
  (c10_status_fields ⟨"https://proj.supabase.co", [], false⟩
    (fun _ => Except.error (strVal "network down")) "fn" none).1
    (strVal "network down") rfl rfl

end FunctionsJs
